import Mathlib

/-!
Verification of the bubbles VM lifecycle orchestrator (src/bubbles-app/src/main.rs).

The orchestrator's pure logic is embedded shallowly:
* the control-protocol wire format (`unix_http`, main.rs lines 65-76) as a
  function from method and path to the request text;
* the readiness check of `wait_until_ready` (lines 126-135) as a substring
  test for "200" over the response text;
* the asynchronous start/stop sequence of `VmEntry::update` (lines 399-498)
  as a function from an oracle of `/ready` exchange outcomes (one entry per
  loop iteration of `wait_until_ready`; `none` is a failed exchange) to the
  ordered trace of observable events the task performs;
* the image provisioning pipeline (`download_image`, lines 145-184), the
  probe (`determine_download_status`, lines 92-102), the instance provisioner
  (`create_vm`, lines 313-325) and the registry reload (`load_vms`,
  lines 295-311, and `AppMsg::FinishBubbleCreation`, lines 679-686) over a
  small record of the filesystem state each touches.
-/

namespace Bubbles

/-- The three VM states of `enum VMStatus` (main.rs lines 282-287). -/
inductive VMStatus where
  | NotRunning : VMStatus
  | Running : VMStatus
  | InFlux : VMStatus
deriving DecidableEq, Repr

/-- The tri-state image readiness of `enum ImageStatus` (main.rs lines 85-90). -/
inductive ImageStatus where
  | NotPresent : ImageStatus
  | Downloading : ImageStatus
  | Present : ImageStatus
deriving DecidableEq, Repr

/-- A VM entry: name and status (`struct VM`, main.rs lines 289-293). -/
structure VM where
  name : String
  status : VMStatus
deriving DecidableEq, Repr

/-- Whether `needle` is a prefix of `hay`, over characters. -/
def charPrefixOf : List Char → List Char → Bool
  | [], _ => true
  | _ :: _, [] => false
  | n :: ns, c :: cs => n == c && charPrefixOf ns cs

/-- Whether `needle` occurs as a contiguous substring of `hay`:
the semantics of Rust `str::contains` with a string pattern. -/
def containsSub : List Char → List Char → Bool
  | [], needle => needle.isEmpty
  | c :: rest, needle => charPrefixOf needle (c :: rest) || containsSub rest needle

/-- Rust `String::contains` on string data. -/
def strContains (s needle : String) : Bool :=
  containsSub s.data needle.data

/-- The request text `unix_http` writes to the control socket
(main.rs lines 68-71): `format!("{} {} HTTP/1.0\r\nHost: localhost\r\nContent-Length: 0\r\n\r\n", method, path)`. -/
def unix_http_request (method path : String) : String :=
  method ++ " " ++ path ++ " HTTP/1.0\r\nHost: localhost\r\nContent-Length: 0\r\n\r\n"

/-- The success test of `wait_until_ready` on one `/ready` response
(main.rs line 129): `response.contains("200")`. -/
def ready_response (response : String) : Bool :=
  strContains response "200"

/-- Model of `request_shutdown` (main.rs lines 137-139): a POST on `/shutdown` whose
response is ignored and whose errors are swallowed (`.ok()`); the result is
the wire bytes written plus unit, independent of the exchange outcome. -/
def request_shutdown (_outcome : Except Unit String) : String × Unit :=
  (unix_http_request "POST" "/shutdown", ())

/-- Model of `request_terminal` (main.rs lines 141-143): a POST on `/spawn-terminal`,
response ignored, errors swallowed. -/
def request_terminal (_outcome : Except Unit String) : String × Unit :=
  (unix_http_request "POST" "/spawn-terminal", ())

/-- The observable events of one VM's lifecycle task
(`VmEntry::update`, main.rs lines 394-507). -/
inductive Event where
  | spawnSocat : Event
  | spawnPasst : Event
  | waitPasstSocket : Event
  | spawnCrosvm : Event
  | readyProbe : Option String → Event
  | publish : VMStatus → Event
  | crosvmExit : Event
  | sigtermSocat : Event
  | sigtermPasst : Event
  | waitSocatExit : Event
  | waitPasstExit : Event
  | requestShutdown : Event
deriving DecidableEq, Repr

/-- The probe events of the `wait_until_ready` loop (main.rs lines 126-135),
given the oracle of exchange outcomes: each iteration performs one
`unix_http(.., "GET", "/ready")` exchange and returns as soon as a response
contains "200"; otherwise it sleeps 500 ms and retries. -/
def wait_until_ready_probes : List (Option String) → List Event
  | [] => []
  | none :: rest => Event.readyProbe none :: wait_until_ready_probes rest
  | some s :: rest =>
      if ready_response s then [Event.readyProbe (some s)]
      else Event.readyProbe (some s) :: wait_until_ready_probes rest

/-- Whether the `wait_until_ready` loop has returned within the oracle:
true exactly when some exchange succeeded with a response containing "200". -/
def wait_until_ready_done : List (Option String) → Bool
  | [] => false
  | none :: rest => wait_until_ready_done rest
  | some s :: rest =>
      if ready_response s then true else wait_until_ready_done rest

/-- The first four steps of the spawned start task, in source order
(main.rs lines 428-487): spawn socat (the guest-socket bridge), spawn passt
(the network proxy), wait for the passt socket path to exist, spawn crosvm
(the hypervisor). -/
def spawnPhase : List Event :=
  [Event.spawnSocat, Event.spawnPasst, Event.waitPasstSocket, Event.spawnCrosvm]

/-- The tail of the start task once `wait_until_ready` has returned
(main.rs lines 490-496): publish `Running`, wait for crosvm to exit, SIGTERM
socat, SIGTERM passt, wait for socat to exit, wait for passt to exit,
publish `NotRunning`. -/
def runTail : List Event :=
  [Event.publish VMStatus.Running, Event.crosvmExit, Event.sigtermSocat,
   Event.sigtermPasst, Event.waitSocatExit, Event.waitPasstExit,
   Event.publish VMStatus.NotRunning]

/-- The full event trace of the spawned start task (main.rs lines 408-497),
given the oracle of `/ready` exchange outcomes. When the oracle never yields
a "200" response the task is still inside the readiness loop and the tail is
absent. -/
def startSequence (rs : List (Option String)) : List Event :=
  spawnPhase ++
    (wait_until_ready_probes rs ++
      (if wait_until_ready_done rs = true then runTail else []))

/-- The `VmMsg::PowerToggle` handler (main.rs lines 399-499): the pair of the
events performed synchronously inside the handler and the trace of the task
it spawns. From `Running` or `InFlux` it only spawns a best-effort shutdown
request; from `NotRunning` it synchronously publishes `InFlux` and spawns
the start sequence. -/
def power_toggle (status : VMStatus) (rs : List (Option String)) :
    List Event × List Event :=
  match status with
  | VMStatus.Running => ([], [Event.requestShutdown])
  | VMStatus.InFlux => ([], [Event.requestShutdown])
  | VMStatus.NotRunning => ([Event.publish VMStatus.InFlux], startSequence rs)

/-- The status carried by the first `publish` event of a trace, if any. -/
def firstPublish : List Event → Option VMStatus
  | [] => none
  | Event.publish s :: _ => some s
  | _ :: rest => firstPublish rest

/-- Event `a` occurs strictly before an occurrence of event `b` in the
trace. -/
def occursBefore (a b : Event) : List Event → Prop
  | [] => False
  | e :: rest => (e = a ∧ b ∈ rest) ∨ occursBefore a b rest

instance instDecOccursBefore (a b : Event) :
    (t : List Event) → Decidable (occursBefore a b t)
  | [] => isFalse (fun h => h)
  | e :: rest =>
      have : Decidable (occursBefore a b rest) := instDecOccursBefore a b rest
      inferInstanceAs (Decidable ((e = a ∧ b ∈ rest) ∨ occursBefore a b rest))

/-- The vsock context identifier computed for the VM at registry position `i`:
the expression `index.current_index() + 10` shared by the socat invocation
(main.rs line 421) and the crosvm invocation (main.rs line 454). -/
def vsock_cid (i : Nat) : Nat := i + 10

/-- The socat address argument for registry position `i` (main.rs line 421):
`format!("VSOCK-CONNECT:{}:11111", index.current_index() + 10)`. -/
def socat_vsock (i : Nat) : String :=
  "VSOCK-CONNECT:" ++ toString (i + 10) ++ ":11111"

/-- The crosvm `--vsock` argument for registry position `i` (main.rs
line 454): `format!("{}", index.current_index() + 10)`. -/
def crosvm_vsock_arg (i : Nat) : String :=
  toString (i + 10)

/-- The slice of the filesystem the image pipeline and its probe touch:
whether `images/debian-13` exists, the logical length of its `disk.img`, and
whether the intermediate `disk.qcow2` is present. -/
structure ImagesFs where
  templateDirPresent : Bool
  rawDiskSize : Nat
  qcow2Present : Bool
deriving DecidableEq, Repr

/-- The probe `determine_download_status` (main.rs lines 92-102): `Present` exactly when
the `images/debian-13` directory entry exists, else `NotPresent`. -/
def determine_download_status (fs : ImagesFs) : ImageStatus :=
  if fs.templateDirPresent then ImageStatus.Present else ImageStatus.NotPresent

/-- Rust `File::set_len` on the raw disk: sets the file's logical length. -/
def set_len (fs : ImagesFs) (n : Nat) : ImagesFs :=
  { fs with rawDiskSize := n }

/-- A successful run of `download_image` (main.rs lines 145-184):
create the `images/debian-13` directory, pull the artifact, convert
`disk.qcow2` to a raw `disk.img` of size `convertedSize`, remove the qcow2,
then extend the raw image by `15 * 1024 * 1024 * 1024` bytes via `set_len`. -/
def download_image (fs : ImagesFs) (convertedSize : Nat) : ImagesFs :=
  let fs1 := { fs with templateDirPresent := true }
  let fs2 := { fs1 with rawDiskSize := convertedSize, qcow2Present := true }
  let fs3 := { fs2 with qcow2Present := false }
  set_len fs3 (fs3.rawDiskSize + 15 * 1024 * 1024 * 1024)

/-- The slice of the filesystem `create_vm` writes: which of the three files
of the new VM directory have been copied from the template. -/
structure VmDirFs where
  diskCopied : Bool
  vmlinuzCopied : Bool
  initrdCopied : Bool
deriving DecidableEq, Repr

/-- Model of `create_vm` (main.rs lines 313-325): copy `disk.img`, then `vmlinuz`,
then `initrd.img` from the template into the new VM directory. Each copy may
fail (`disk_ok`, `linuz_ok`, `initrd_ok`); a failure aborts the whole
operation (`.expect` in the source), leaving the files already copied in
place (`Except.error` carries the directory state at the failure). -/
def create_vm (disk_ok linuz_ok initrd_ok : Bool) : Except VmDirFs VmDirFs :=
  let fs0 : VmDirFs := { diskCopied := false, vmlinuzCopied := false, initrdCopied := false }
  if disk_ok then
    let fs1 := { fs0 with diskCopied := true }
    if linuz_ok then
      let fs2 := { fs1 with vmlinuzCopied := true }
      if initrd_ok then Except.ok { fs2 with initrdCopied := true }
      else Except.error fs2
    else Except.error fs1
  else Except.error fs0

/-- Model of `load_vms` (main.rs lines 295-311): one VM entry per directory name under
`vms/`, each initialized with status `NotRunning`. -/
def load_vms (dirNames : List String) : List VM :=
  dirNames.map (fun vm_name => { name := vm_name, status := VMStatus.NotRunning })

/-- The `AppMsg::FinishBubbleCreation` handler (main.rs lines 679-686):
reload the VM list from the filesystem, clear the registry, and push every
reloaded entry back. -/
def finish_bubble_creation (vms : List VM) (dirNames : List String) : List VM :=
  let new_vms := load_vms dirNames
  let cleared : List VM := []
  cleared ++ new_vms

/-! ## Helper lemmas -/

/-- An `occursBefore` fact is preserved when the trace is extended on the left. -/
theorem occursBefore_append_left {a b : Event} {t : List Event}
    (h : occursBefore a b t) (l : List Event) : occursBefore a b (l ++ t) := by
  induction l with
  | nil => exact h
  | cons e l ih => exact Or.inr ih

/-- An `occursBefore` fact is preserved when the trace is extended on the right. -/
theorem occursBefore_append_right {a b : Event} {l : List Event}
    (h : occursBefore a b l) (t : List Event) : occursBefore a b (l ++ t) := by
  induction l with
  | nil => exact h.elim
  | cons e l ih =>
      rcases h with ⟨he, hb⟩ | h
      · exact Or.inl ⟨he, List.mem_append_left t hb⟩
      · exact Or.inr (ih h)

/-- Any occurrence of `a` in `l` precedes any occurrence of `b` in `t`
inside `l ++ t`. -/
theorem occursBefore_of_mem_mem {a b : Event} {l t : List Event}
    (ha : a ∈ l) (hb : b ∈ t) : occursBefore a b (l ++ t) := by
  induction l with
  | nil => exact absurd ha (List.not_mem_nil a)
  | cons e l ih =>
      rcases List.mem_cons.1 ha with rfl | ha
      · exact Or.inl ⟨rfl, List.mem_append_right l hb⟩
      · exact Or.inr (ih ha)

/-- Every event of the readiness loop is a `/ready` probe. -/
theorem mem_wait_until_ready_probes {rs : List (Option String)} {e : Event}
    (h : e ∈ wait_until_ready_probes rs) : ∃ o, e = Event.readyProbe o := by
  induction rs with
  | nil => simp [wait_until_ready_probes] at h
  | cons r rest ih =>
      cases r with
      | none =>
          rcases List.mem_cons.1 h with rfl | h
          · exact ⟨none, rfl⟩
          · exact ih h
      | some s =>
          by_cases hr : ready_response s = true
          · simp [wait_until_ready_probes, hr] at h
            exact ⟨some s, h⟩
          · simp only [wait_until_ready_probes, hr, if_false, Bool.false_eq_true] at h
            rcases List.mem_cons.1 h with rfl | h
            · exact ⟨some s, rfl⟩
            · exact ih h

/-- When the readiness loop has returned, some probe in its trace carried a
response containing "200". -/
theorem wait_until_ready_done_exists {rs : List (Option String)}
    (h : wait_until_ready_done rs = true) :
    ∃ r, ready_response r = true ∧
      Event.readyProbe (some r) ∈ wait_until_ready_probes rs := by
  induction rs with
  | nil => simp [wait_until_ready_done] at h
  | cons r rest ih =>
      cases r with
      | none =>
          obtain ⟨r, hr, hm⟩ := ih h
          exact ⟨r, hr, List.mem_cons_of_mem _ hm⟩
      | some s =>
          by_cases hr : ready_response s = true
          · exact ⟨s, hr, by simp [wait_until_ready_probes, hr]⟩
          · simp only [wait_until_ready_done, hr, if_false, Bool.false_eq_true] at h
            obtain ⟨r, hr2, hm⟩ := ih h
            refine ⟨r, hr2, ?_⟩
            simp only [wait_until_ready_probes, hr, if_false, Bool.false_eq_true]
            exact List.mem_cons_of_mem _ hm

/-- A `publish` event appears in the start trace only when the readiness loop
has returned. -/
theorem publish_mem_done {rs : List (Option String)} {s : VMStatus}
    (h : Event.publish s ∈ startSequence rs) : wait_until_ready_done rs = true := by
  unfold startSequence at h
  rcases List.mem_append.1 h with h | h
  · simp [spawnPhase] at h
  · rcases List.mem_append.1 h with h | h
    · obtain ⟨o, ho⟩ := mem_wait_until_ready_probes h
      exact absurd ho (by simp)
    · by_cases hd : wait_until_ready_done rs = true
      · exact hd
      · simp [hd] at h

/-- An ordering fact of the post-readiness tail holds of the whole start
trace once the readiness loop has returned. -/
theorem occursBefore_startSequence_of_tail {a b : Event}
    {rs : List (Option String)} (hd : wait_until_ready_done rs = true)
    (h : occursBefore a b runTail) : occursBefore a b (startSequence rs) := by
  have h2 := occursBefore_append_left h (wait_until_ready_probes rs)
  have h3 := occursBefore_append_left
    (t := wait_until_ready_probes rs ++ runTail) h2 spawnPhase
  simpa [startSequence, hd] using h3

/-- An ordering fact among the four spawn/wait steps holds of the whole start
trace. -/
theorem occursBefore_startSequence_of_head {a b : Event}
    (rs : List (Option String)) (h : occursBefore a b spawnPhase) :
    occursBefore a b (startSequence rs) := by
  unfold startSequence
  exact occursBefore_append_right h _

/-- Correctness of `charPrefixOf`: it decides the existence of a completing suffix. -/
theorem charPrefixOf_iff (n : List Char) : ∀ h : List Char,
    charPrefixOf n h = true ↔ ∃ t, h = n ++ t := by
  induction n with
  | nil =>
      intro h
      simp [charPrefixOf]
  | cons c cs ih =>
      intro h
      cases h with
      | nil =>
          simp [charPrefixOf]
      | cons d ds =>
          simp only [charPrefixOf, Bool.and_eq_true, beq_iff_eq, ih,
            List.cons_append, List.cons.injEq]
          constructor
          · rintro ⟨rfl, t, rfl⟩
            exact ⟨t, rfl, rfl⟩
          · rintro ⟨t, rfl, rfl⟩
            exact ⟨rfl, t, rfl⟩

/-- Correctness of `containsSub`: it decides the existence of a substring decomposition. -/
theorem containsSub_iff (needle : List Char) : ∀ hay : List Char,
    containsSub hay needle = true ↔ ∃ pre post, hay = pre ++ needle ++ post := by
  intro hay
  induction hay with
  | nil =>
      cases needle with
      | nil => simp [containsSub]
      | cons c cs => simp [containsSub]
  | cons c rest ih =>
      simp only [containsSub, Bool.or_eq_true, charPrefixOf_iff, ih]
      constructor
      · rintro (⟨t, ht⟩ | ⟨pre, post, hp⟩)
        · exact ⟨[], t, by simpa using ht⟩
        · exact ⟨c :: pre, post, by simp [hp]⟩
      · rintro ⟨pre, post, hp⟩
        cases pre with
        | nil =>
            exact Or.inl ⟨post, by simpa using hp⟩
        | cons d pres =>
            rcases List.cons_eq_cons.mp hp with ⟨rfl, hrest⟩
            exact Or.inr ⟨pres, post, hrest⟩

/-! ## Claim theorems -/

/-- C1: `Running` is published only after the `wait_until_ready` loop has
returned, which happens only on a `/ready` exchange whose response text
contains the substring "200": every occurrence of `publish Running` in the
start trace is strictly preceded by a probe whose response satisfies
`ready_response`, i.e. contains "200". -/
theorem running_published_only_after_ready (rs : List (Option String))
    (h : Event.publish VMStatus.Running ∈ startSequence rs) :
    ∃ response, ready_response response = true ∧
      occursBefore (Event.readyProbe (some response))
        (Event.publish VMStatus.Running) (startSequence rs) := by
  have hd := publish_mem_done h
  obtain ⟨r, hr, hm⟩ := wait_until_ready_done_exists hd
  refine ⟨r, hr, ?_⟩
  unfold startSequence
  apply occursBefore_append_left
  have hb : Event.publish VMStatus.Running ∈
      (if wait_until_ready_done rs = true then runTail else []) := by
    simp [hd, runTail]
  exact occursBefore_of_mem_mem hm hb

/-- C1 witness: with a single successful `/ready` exchange the start trace
publishes `Running`, and the theorem yields the preceding "200" probe. -/
theorem running_published_only_after_ready_witness :
    ∃ response, ready_response response = true ∧
      occursBefore (Event.readyProbe (some response))
        (Event.publish VMStatus.Running)
        (startSequence [some "HTTP/1.0 200 OK"]) :=
  running_published_only_after_ready [some "HTTP/1.0 200 OK"] (by decide)

/-- C2 counterexample: in the concrete start trace driven by one successful
`/ready` exchange, the guest-socket bridge process (socat) is spawned before
the network-proxy process (passt), and the network proxy is not spawned
before the bridge — contradicting the claimed order
"network proxy first, then guest-socket bridge". -/
theorem start_order_counterexample :
    occursBefore Event.spawnSocat Event.spawnPasst
      (startSequence [some "HTTP/1.0 200 OK"]) ∧
    ¬ occursBefore Event.spawnPasst Event.spawnSocat
      (startSequence [some "HTTP/1.0 200 OK"]) := by
  constructor
  · decide
  · decide

/-- C2 (amended): within one VM's start sequence the steps execute strictly
in order — first the guest-socket bridge process (socat) is spawned, then
the network-proxy process (passt), then the sequence waits for the network
proxy's socket path to exist, then the hypervisor process (crosvm) is
spawned, and every `/ready` probe of the readiness poll (and the `Running`
publication it gates) comes after the hypervisor spawn. -/
theorem start_sequence_step_order (rs : List (Option String)) :
    occursBefore Event.spawnSocat Event.spawnPasst (startSequence rs) ∧
    occursBefore Event.spawnPasst Event.waitPasstSocket (startSequence rs) ∧
    occursBefore Event.waitPasstSocket Event.spawnCrosvm (startSequence rs) ∧
    (∀ o, Event.readyProbe o ∈ startSequence rs →
      occursBefore Event.spawnCrosvm (Event.readyProbe o) (startSequence rs)) ∧
    (Event.publish VMStatus.Running ∈ startSequence rs →
      occursBefore Event.spawnCrosvm (Event.publish VMStatus.Running)
        (startSequence rs)) := by
  refine ⟨?_, ?_, ?_, ?_, ?_⟩
  · exact occursBefore_startSequence_of_head rs (by decide)
  · exact occursBefore_startSequence_of_head rs (by decide)
  · exact occursBefore_startSequence_of_head rs (by decide)
  · intro o h
    unfold startSequence at h ⊢
    rcases List.mem_append.1 h with h | h
    · simp [spawnPhase] at h
    · exact occursBefore_of_mem_mem (by decide) h
  · intro h
    have hd := publish_mem_done h
    unfold startSequence at h ⊢
    rcases List.mem_append.1 h with h | h
    · simp [spawnPhase] at h
    · exact occursBefore_of_mem_mem (by decide) h

/-- C5: once the hypervisor process has exited on its own, the start task
signals SIGTERM to the guest-socket bridge (socat) and the network proxy
(passt), waits for each of them to exit, and publishes `NotRunning` only
after both waits: in any start trace that publishes `NotRunning`, the
hypervisor exit precedes both SIGTERMs, each SIGTERM precedes the matching
exit wait, and both exit waits precede the `NotRunning` publication. -/
theorem notRunning_published_after_teardown (rs : List (Option String))
    (h : Event.publish VMStatus.NotRunning ∈ startSequence rs) :
    occursBefore Event.crosvmExit Event.sigtermSocat (startSequence rs) ∧
    occursBefore Event.crosvmExit Event.sigtermPasst (startSequence rs) ∧
    occursBefore Event.sigtermSocat Event.waitSocatExit (startSequence rs) ∧
    occursBefore Event.sigtermPasst Event.waitPasstExit (startSequence rs) ∧
    occursBefore Event.waitSocatExit (Event.publish VMStatus.NotRunning)
      (startSequence rs) ∧
    occursBefore Event.waitPasstExit (Event.publish VMStatus.NotRunning)
      (startSequence rs) := by
  have hd := publish_mem_done h
  refine ⟨?_, ?_, ?_, ?_, ?_, ?_⟩ <;>
    exact occursBefore_startSequence_of_tail hd (by decide)

/-- C5 witness: the teardown ordering at the concrete trace driven by one
successful `/ready` exchange. -/
theorem notRunning_published_after_teardown_witness :
    occursBefore Event.crosvmExit Event.sigtermSocat
      (startSequence [some "HTTP/1.0 200 OK"]) ∧
    occursBefore Event.crosvmExit Event.sigtermPasst
      (startSequence [some "HTTP/1.0 200 OK"]) ∧
    occursBefore Event.sigtermSocat Event.waitSocatExit
      (startSequence [some "HTTP/1.0 200 OK"]) ∧
    occursBefore Event.sigtermPasst Event.waitPasstExit
      (startSequence [some "HTTP/1.0 200 OK"]) ∧
    occursBefore Event.waitSocatExit (Event.publish VMStatus.NotRunning)
      (startSequence [some "HTTP/1.0 200 OK"]) ∧
    occursBefore Event.waitPasstExit (Event.publish VMStatus.NotRunning)
      (startSequence [some "HTTP/1.0 200 OK"]) :=
  notRunning_published_after_teardown [some "HTTP/1.0 200 OK"] (by decide)

/-- C3: a power toggle on a `NotRunning` VM publishes `InFlux` synchronously
inside the handler — the synchronous part of the handler is exactly that one
publication, performed before the asynchronous start task exists — and the
first status published across the whole toggle (synchronous part followed by
the spawned start task) is `InFlux`, never `Running`. -/
theorem toggle_notRunning_publishes_influx (rs : List (Option String)) :
    (power_toggle VMStatus.NotRunning rs).1 = [Event.publish VMStatus.InFlux] ∧
    firstPublish ((power_toggle VMStatus.NotRunning rs).1 ++
      (power_toggle VMStatus.NotRunning rs).2) = some VMStatus.InFlux ∧
    some VMStatus.InFlux ≠ some VMStatus.Running :=
  ⟨rfl, rfl, by decide⟩

/-- C4: a power toggle on a `Running` or `InFlux` VM performs no synchronous
event and spawns only a best-effort shutdown request — no status publication
occurs anywhere in that branch; `request_shutdown` writes a POST on
`/shutdown` and returns unit whatever the exchange outcome (response
ignored, errors swallowed); and in the start trace the pending
hypervisor-exit wait precedes any `NotRunning` publication. -/
theorem toggle_running_or_influx_shutdown (rs : List (Option String))
    (outcome other : Except Unit String) :
    power_toggle VMStatus.Running rs = ([], [Event.requestShutdown]) ∧
    power_toggle VMStatus.InFlux rs = ([], [Event.requestShutdown]) ∧
    (request_shutdown outcome).1 =
      "POST /shutdown HTTP/1.0\r\nHost: localhost\r\nContent-Length: 0\r\n\r\n" ∧
    request_shutdown outcome = request_shutdown other ∧
    (∀ s, Event.publish s ∉ (power_toggle VMStatus.Running rs).1 ++
      (power_toggle VMStatus.Running rs).2) ∧
    (∀ s, Event.publish s ∉ (power_toggle VMStatus.InFlux rs).1 ++
      (power_toggle VMStatus.InFlux rs).2) ∧
    (Event.publish VMStatus.NotRunning ∈ startSequence rs →
      occursBefore Event.crosvmExit (Event.publish VMStatus.NotRunning)
        (startSequence rs)) := by
  refine ⟨rfl, rfl, rfl, rfl, ?_, ?_, ?_⟩
  · intro s
    simp [power_toggle]
  · intro s
    simp [power_toggle]
  · intro h
    exact occursBefore_startSequence_of_tail (publish_mem_done h) (by decide)

/-- C6: the vsock CID is the pure function `i + 10` of the registry
position, used identically by the socat bridge argument (with the fixed
port 11111) and the crosvm `--vsock` argument, and distinct registry
positions always yield distinct CIDs. -/
theorem vsock_cid_of_position (i j : Nat) (h : i ≠ j) :
    vsock_cid i ≠ vsock_cid j ∧
    vsock_cid i = i + 10 ∧
    socat_vsock i = "VSOCK-CONNECT:" ++ toString (vsock_cid i) ++ ":11111" ∧
    crosvm_vsock_arg i = toString (vsock_cid i) := by
  refine ⟨?_, rfl, rfl, rfl⟩
  intro hc
  exact h (Nat.add_right_cancel hc)

/-- C6 witness: positions 0 and 1 give the distinct CIDs 10 and 11. -/
theorem vsock_cid_of_position_witness :
    vsock_cid 0 ≠ vsock_cid 1 ∧
    vsock_cid 0 = 0 + 10 ∧
    socat_vsock 0 = "VSOCK-CONNECT:" ++ toString (vsock_cid 0) ++ ":11111" ∧
    crosvm_vsock_arg 0 = toString (vsock_cid 0) :=
  vsock_cid_of_position 0 1 (by decide)

/-- C7: a successful image pipeline run whose conversion step produced a raw
disk of `convertedSize` bytes leaves the raw disk with logical length exactly
`convertedSize + 15 * 1024 * 1024 * 1024` bytes, with the intermediate qcow2
removed, and the subsequent `ImageStatus` probe returns `Present`. -/
theorem download_image_size_and_status (fs : ImagesFs) (convertedSize : Nat) :
    (download_image fs convertedSize).rawDiskSize =
      convertedSize + 15 * 1024 * 1024 * 1024 ∧
    (download_image fs convertedSize).qcow2Present = false ∧
    determine_download_status (download_image fs convertedSize) =
      ImageStatus.Present :=
  ⟨rfl, rfl, rfl⟩

/-- C8: every control-channel exchange writes exactly the bytes
`METHOD PATH HTTP/1.0\r\nHost: localhost\r\nContent-Length: 0\r\n\r\n` with
no body; the three exchanges issued by the orchestrator are GET `/ready`,
POST `/shutdown` and POST `/spawn-terminal`; and readiness success is
exactly the presence of the substring "200" anywhere in the response
text. -/
theorem control_protocol_wire_format (r : String) :
    unix_http_request "GET" "/ready" =
      "GET /ready HTTP/1.0\r\nHost: localhost\r\nContent-Length: 0\r\n\r\n" ∧
    (request_shutdown (Except.ok r)).1 =
      "POST /shutdown HTTP/1.0\r\nHost: localhost\r\nContent-Length: 0\r\n\r\n" ∧
    (request_terminal (Except.ok r)).1 =
      "POST /spawn-terminal HTTP/1.0\r\nHost: localhost\r\nContent-Length: 0\r\n\r\n" ∧
    (ready_response r = true ↔
      ∃ pre post, r.data = pre ++ "200".data ++ post) := by
  refine ⟨rfl, rfl, rfl, ?_⟩
  exact containsSub_iff "200".data r.data

/-- C9: instance provisioning copies disk, kernel and initrd in order; the
operation succeeds exactly when all three copies succeed, and on failure the
directory state carries every file copied before the failing step — earlier
copies are not rolled back, the failing and later files are absent. -/
theorem create_vm_all_or_nothing (disk_ok linuz_ok initrd_ok : Bool) :
    ((create_vm disk_ok linuz_ok initrd_ok).isOk = true ↔
      disk_ok = true ∧ linuz_ok = true ∧ initrd_ok = true) ∧
    (∀ fs, create_vm disk_ok linuz_ok initrd_ok = Except.error fs →
      fs.diskCopied = disk_ok ∧ fs.vmlinuzCopied = (disk_ok && linuz_ok) ∧
      fs.initrdCopied = false) := by
  cases disk_ok <;> cases linuz_ok <;> cases initrd_ok <;>
    refine ⟨by decide, ?_⟩ <;> intro fs hfs <;>
    simp only [create_vm, if_true, if_false, Bool.false_eq_true,
      Except.error.injEq] at hfs <;>
    first
      | (subst hfs; exact ⟨rfl, rfl, rfl⟩)
      | exact absurd hfs (fun h => Except.noConfusion h)

/-- C9 witness: when the disk copy succeeds and the kernel copy fails, the
whole operation fails and the error state keeps the copied disk (no
rollback) with kernel and initrd absent. -/
theorem create_vm_all_or_nothing_witness :
    ((create_vm true false true).isOk = true ↔
      true = true ∧ false = true ∧ true = true) ∧
    ((⟨true, false, false⟩ : VmDirFs).diskCopied = true ∧
      (⟨true, false, false⟩ : VmDirFs).vmlinuzCopied = (true && false) ∧
      (⟨true, false, false⟩ : VmDirFs).initrdCopied = false) :=
  ⟨(create_vm_all_or_nothing true false true).1,
    (create_vm_all_or_nothing true false true).2 ⟨true, false, false⟩ rfl⟩

/-- C10: the replace-all step after instance creation discards every
existing registry entry and rebuilds the registry from the filesystem
listing, every rebuilt entry carrying status `NotRunning`; in particular the
result does not depend on the statuses the entries had before, so a VM that
was `Running` or `InFlux` is `NotRunning` afterwards. -/
theorem finish_bubble_creation_resets_statuses (vms other : List VM)
    (dirNames : List String) :
    (∀ vm, vm ∈ finish_bubble_creation vms dirNames →
      vm.status = VMStatus.NotRunning) ∧
    (finish_bubble_creation vms dirNames).map VM.name = dirNames ∧
    finish_bubble_creation vms dirNames = finish_bubble_creation other dirNames := by
  refine ⟨?_, ?_, rfl⟩
  · intro vm hvm
    simp only [finish_bubble_creation, load_vms, List.nil_append,
      List.mem_map] at hvm
    obtain ⟨n, _, rfl⟩ := hvm
    rfl
  · show (load_vms dirNames).map VM.name = dirNames
    have hcomp : (VM.name ∘ fun vm_name =>
        ({ name := vm_name, status := VMStatus.NotRunning } : VM)) = id := rfl
    rw [load_vms, List.map_map, hcomp, List.map_id]

end Bubbles
